import Mathlib

/-!
# Verification of the screen-demo recording core (`src-tauri/src/lib.rs`)

A shallow embedding of the session-state, input-sampling, finalization and
media-delivery logic of the repository, together with theorems settling the
frozen specification claims.

Modelling conventions:
* Rust `usize`/`u64` arithmetic is modelled on `Nat` with explicit wrapping
  (`% 2 ^ 64`) at the operations where the source can overflow (release-build
  semantics; debug builds panic at the same spots).
* `f64` timestamps are modelled as exact rationals `ℚ`; the debounce pass only
  subtracts, multiplies by 1000 and compares, so no rounding behaviour is lost
  on the inputs the claims exercise.
* Rust panics (index out of bounds, arithmetic underflow) surface as `none`
  of an `Option`-valued model.
* Filesystem bytes are modelled as `List Nat`; the base64 transport encoding of
  `get_video_chunk` is injective and is elided: the model returns the sliced
  bytes themselves.
-/

namespace ScreenDemo

/-- Modulus of Rust `usize`/`u64` arithmetic on the 64-bit target. -/
def USIZE_MOD : Nat := 2 ^ 64

/-- `MousePosition` (lib.rs:57-64): one input sample.  `timestamp` is
`f64` seconds since session start, modelled as `ℚ`. -/
structure MousePosition where
  x : Int
  y : Int
  timestamp : ℚ
  isClicked : Bool
  cursor_type : String
deriving Repr, DecidableEq, Inhabited

/-- `MonitorInfo` (lib.rs:66-75): one display descriptor as produced by
`get_monitors`; `x`,`y` is the display origin (top-left corner). -/
structure MonitorInfo where
  id : String
  name : String
  x : Int
  y : Int
  width : Nat
  height : Nat
  is_primary : Bool
deriving Repr, DecidableEq, Inhabited

/-! ## Indexed chunk pull (`get_video_chunk`, lib.rs:732-750) -/

/-- `CHUNK_SIZE` (lib.rs:732): 1 MB chunks. -/
def CHUNK_SIZE : Nat := 1024 * 1024

/-- `get_video_chunk` (lib.rs:736-750).  `mmap` is the memory-mapped artifact
(`None` when no map is installed).  `start = chunk_index * CHUNK_SIZE` is a
`usize` product, hence reduced `% 2 ^ 64`; the slice `mmap[start..end]` is
`drop start` then `take (end - start)`. -/
def get_video_chunk (mmap : Option (List Nat)) (chunk_index : Nat) :
    Except String (List Nat) :=
  match mmap with
  | none => .error "No video file available"
  | some m =>
    let start := chunk_index * CHUNK_SIZE % USIZE_MOD
    let stop := min (start + CHUNK_SIZE) m.length
    if start ≥ m.length then
      .error "Chunk index out of bounds"
    else
      .ok ((m.drop start).take (stop - start))

/-! ## Frame-forwarding error policy (`on_frame_arrived`, lib.rs:198-291)

Only the state consulted by the send-error branch is modelled: the
`ENCODER_ACTIVE` guard at the top of the handler, the `frame_count` increment
that precedes the `send_frame` call, and the `< 100` threshold test. -/

/-- Result of the external `send_frame` call. -/
inductive SendResult where
  | ok : SendResult
  | err (msg : String) : SendResult
deriving Repr, DecidableEq

/-- The send/error-handling slice of `on_frame_arrived` (lib.rs:203-291):
given the `ENCODER_ACTIVE` flag, the frame counter value *before* this frame
(the handler increments it before sending, lib.rs:217) and the outcome of
`send_frame`, returns what the handler returns. -/
def on_frame_arrived_send (encoderActive : Bool) (frameCountBefore : Nat)
    (send : SendResult) : Except String Unit :=
  if !encoderActive then
    .ok ()
  else
    let frame_count := frameCountBefore + 1
    match send with
    | .ok => .ok ()
    | .err e =>
      if frame_count < 100 then
        -- lib.rs:284-286: errors during the first frames are critical
        .error e
      else
        -- lib.rs:288-290: log and attempt to continue encoding
        .ok ()

/-! ## Finalizer deadline policy (lib.rs:353-434)

The supervising closure spawned on stop: it measures the artifact size before
spawning the finalization worker, picks the deadline from it, waits on the
completion channel, and sets `ENCODING_FINISHED` regardless of the outcome.
The worker thread is never joined or cancelled; we track that with explicit
flags that no branch of the supervisor touches. -/

/-- Outcome of `rx.recv_timeout` on the finalization channel
(lib.rs:396-408): the worker's `encoder.finish()` succeeded, returned an
error, or the deadline expired first. -/
inductive FinalizeOutcome where
  | completed : FinalizeOutcome
  | errored (msg : String) : FinalizeOutcome
  | timedOut : FinalizeOutcome
deriving Repr, DecidableEq

/-- State visible to the supervising thread. -/
structure FinalizerState where
  encodingFinished : Bool
  workerCancelled : Bool
  workerJoined : Bool
deriving Repr, DecidableEq

/-- Deadline choice (lib.rs:374-391): `has_usable_data` iff the
pre-finalization file size exceeds 1 MB; 5 s if so, else 10 s. -/
def finalize_deadline_secs (preFinalizeSize : Nat) : Nat :=
  if preFinalizeSize > 1024 * 1024 then 5 else 10

/-- The supervising closure (lib.rs:354-434): returns the deadline it waited
with and the state it leaves behind.  Every `recv_timeout` branch only logs;
control then reaches `ENCODING_FINISHED.store(true)` (lib.rs:411)
unconditionally, and the worker thread is left running. -/
def supervise_finalization (preFinalizeSize : Nat) (outcome : FinalizeOutcome)
    (st : FinalizerState) : Nat × FinalizerState :=
  let timeout := finalize_deadline_secs preFinalizeSize
  let st :=
    match outcome with
    | .completed => st        -- lib.rs:397-399: log success
    | .errored _ => st        -- lib.rs:400-403: log, use partial video
    | .timedOut => st         -- lib.rs:404-407: log, proceed regardless
  (timeout, { st with encodingFinished := true })

/-! ## Global session state, `cleanup_resources` and `stop_recording`
(lib.rs:41-54, 529-570, 1027-1150) -/

/-- The process-wide statics of lib.rs:41-54 gathered into one record, plus
the artifact file bytes on disk (`artifactFile`), which no reclamation code
touches.  `videoPath` is `VIDEO_PATH` of lib.rs:42, deliberately *not*
cleared by `cleanup_resources` (lib.rs:567). -/
structure GlobalState where
  recording : Bool
  videoPath : Option String
  shouldStop : Bool
  isMouseClicked : Bool
  shouldListenClicks : Bool
  encodingFinished : Bool
  encoderActive : Bool
  videoMmap : Option (List Nat)
  serverPorts : List Nat
  mousePositions : List MousePosition
  clickLogged : Bool
  artifactFile : Option (List Nat)
deriving Repr, DecidableEq

/-- `cleanup_resources` (lib.rs:529-570).  `SERVER_PORTS` and
`MOUSE_POSITIONS` are `std::sync::Mutex`es cleared under `if let Ok(..) =
lock()`, so a poisoned lock skips just that step (`portsLockOk`,
`positionsLockOk`); `VIDEO_MMAP` is a `parking_lot` mutex whose `lock()`
cannot fail.  The atomic stores always happen. -/
def cleanup_resources (st : GlobalState) (portsLockOk positionsLockOk : Bool) :
    GlobalState :=
  let st := { st with encoderActive := false }                  -- lib.rs:533
  let st := { st with encodingFinished := true }                -- lib.rs:536
  let st := if portsLockOk then { st with serverPorts := [] } else st
  let st := { st with videoMmap := none }                       -- lib.rs:548-552
  let st := { st with recording := false, shouldStop := false } -- lib.rs:556-557
  let st := if positionsLockOk then { st with mousePositions := [] } else st
  { st with shouldListenClicks := false }                       -- lib.rs:565

/-! ## The local range server (`start_video_server`, lib.rs:837-997) -/

/-- Rust `str::parse::<u64>()` on one header component, the text being its
character sequence: optional leading `+`, then at least one decimal digit and
nothing else, failing on overflow past `u64::MAX`. -/
def parse_u64 (s : List Char) : Option Nat :=
  let s := if s.head? = some '+' then s.drop 1 else s
  if s.length ≠ 0 ∧ s.all (fun c => c.isDigit) then
    let v := s.foldl (fun n c => n * 10 + (c.toNat - 48)) 0
    if v < USIZE_MOD then some v else none
  else none

/-- Rust `str::split('-')` on a character sequence: the (always non-empty)
list of `-`-separated chunks, empty chunks included. -/
def split_dash (s : List Char) : List (List Char) :=
  match s with
  | [] => [[]]
  | c :: rest =>
    let r := split_dash rest
    if c = '-' then [] :: r
    else
      match r with
      | [] => [[c]]
      | h :: t => (c :: h) :: t

/-- What the server sends back for one request: status line, body bytes, and
the `Content-Range` / `Content-Type` headers it may attach.  A
`contentRange = some (s, e, n)` stands for the formatted header
`Content-Range: bytes s-e/n` of lib.rs:966-974. -/
structure HttpResponse where
  status : Nat
  body : List Nat
  contentRange : Option (Nat × Nat × Nat)
  contentType : Option String
deriving Repr, DecidableEq

/-- Range-header parsing (lib.rs:916-934): `start`/`end` default to `0` and
`file_size - 1`; a header value of the shape `bytes=a-b` (prefix `bytes=`,
then exactly two `-`-separated parts) overrides them with
`a.parse().unwrap_or(0)` and `b.parse().unwrap_or(file_size - 1)`. -/
def range_bounds (file_size : Nat) (rangeHeader : Option (List Char)) :
    Nat × Nat :=
  match rangeHeader with
  | none => (0, file_size - 1)
  | some range_str =>
    if range_str.take 6 = "bytes=".toList then
      let parts := split_dash (range_str.drop 6)
      if parts.length = 2 then
        ((parse_u64 (parts.getD 0 [])).getD 0,
         (parse_u64 (parts.getD 1 [])).getD (file_size - 1))
      else (0, file_size - 1)
    else (0, file_size - 1)

/-- `end - start + 1` computed in `u64` (lib.rs:953-954), with release-build
wrapping when `end < start`. -/
def range_len (start stop : Nat) : Nat :=
  ((stop + (USIZE_MOD - start % USIZE_MOD)) % USIZE_MOD + 1) % USIZE_MOD

/-- Body of the request loop (lib.rs:900-986): `OPTIONS` is answered `204`
with no body; otherwise the file is served from `seek(start)` for
`end - start + 1` bytes, with status `200` when `start == 0` and `206`
otherwise, and a `Content-Range` header exactly when `start != 0`
(lib.rs:946-974). -/
def video_server_respond (fileContent : List Nat) (method : String)
    (rangeHeader : Option (List Char)) : HttpResponse :=
  let file_size := fileContent.length
  if method = "OPTIONS" then
    { status := 204, body := [], contentRange := none, contentType := none }
  else
    let se := range_bounds file_size rangeHeader
    { status := if se.1 = 0 then 200 else 206
      body := (fileContent.drop se.1).take (range_len se.1 se.2)
      contentRange := if se.1 ≠ 0 then some (se.1, se.2, file_size) else none
      contentType := some "video/mp4" }

/-! ## Display selection and coordinate adjustment
(`start_recording` lib.rs:625-672, `on_frame_arrived` lib.rs:294-330) -/

/-- The origin stored into `MONITOR_X`/`MONITOR_Y` by `start_recording`
(lib.rs:645-672): the requested id is parsed as `usize` (defaulting to `0`
when absent) and indexes the `EnumDisplayMonitors` list; when the index is out
of range the statics keep their previous values. -/
def select_monitor_origin (monitors : List MonitorInfo)
    (monitor_id : Option String) (prevX prevY : Int) : Int × Int :=
  let monitor_index := (monitor_id.bind (fun id => parse_u64 id.toList)).getD 0
  match monitors[monitor_index]? with
  | some m => (m.x, m.y)
  | none => (prevX, prevY)

/-- The display a session actually records (lib.rs:625-642): an explicit id
`i` selects `Monitor::from_index(i + 1)` — `windows_capture` counts from 1, so
this is the display at enumeration index `i`, the one `get_monitors` labels
`i` — and no id selects `Monitor::primary()`, the display whose monitor-info
flags mark it primary. -/
def selected_display (monitors : List MonitorInfo) (monitor_id : Option String) :
    Option MonitorInfo :=
  match monitor_id with
  | some id => (parse_u64 id.toList).bind (fun i => monitors[i]?)
  | none => monitors.find? (fun m => m.is_primary)

/-- Sample construction in `on_frame_arrived` (lib.rs:311-321): the stored
coordinates are the raw global cursor position minus `MONITOR_X`/`MONITOR_Y`. -/
def make_sample (rawX rawY monX monY : Int) (ts : ℚ) (isClicked : Bool)
    (cursor_type : String) : MousePosition :=
  { x := rawX - monX, y := rawY - monY, timestamp := ts,
    isClicked := isClicked, cursor_type := cursor_type }

/-! ## Cursor-shape debounce (`process_cursor_changes`, lib.rs:1000-1023) -/

/-- Total read of `positions[i]`; every use below is at a provably in-bounds
index. -/
def getP (positions : Array MousePosition) (i : Nat) : MousePosition :=
  (positions[i]?).getD default

/-- The inner scan (lib.rs:1008-1010): starting at `j`, advance while the
entry's `cursor_type` equals `t`; returns the first index past the run. -/
def findRunEnd (positions : Array MousePosition) (t : String) (j : Nat) : Nat :=
  if _h : j < positions.size then
    if (getP positions j).cursor_type = t then
      findRunEnd positions t (j + 1)
    else j
  else j
termination_by positions.size - j

/-- The reclassification write (lib.rs:1016-1019):
`positions.iter_mut().take(j).skip(i)` sets `cursor_type := t` at indices
`i ≤ k < j`. -/
def setRunType (positions : Array MousePosition) (i j : Nat) (t : String) :
    Array MousePosition :=
  Array.ofFn (fun k : Fin positions.size =>
    let p := getP positions k.val
    if i ≤ k.val ∧ k.val < j then { p with cursor_type := t } else p)

theorem le_findRunEnd (positions : Array MousePosition) (t : String) (j : Nat) :
    j ≤ findRunEnd positions t j := by
  unfold findRunEnd
  split
  · split
    · exact le_trans (Nat.le_succ j) (le_findRunEnd positions t (j + 1))
    · exact le_refl j
  · exact le_refl j
termination_by positions.size - j

theorem setRunType_size (positions : Array MousePosition) (i j : Nat)
    (t : String) : (setRunType positions i j t).size = positions.size := by
  simp [setRunType]

/-- The outer `while i < positions.len() - 1` loop (lib.rs:1003-1022) for a
non-empty vector, where the `usize` bound equals `size - 1`. -/
def processLoop (positions : Array MousePosition) (i : Nat) :
    Array MousePosition :=
  if _h : i < positions.size - 1 then
    let j := findRunEnd positions (getP positions i).cursor_type (i + 1)
    if ((getP positions (j - 1)).timestamp - (getP positions i).timestamp)
        * 1000 < 100 ∧ 0 < i then
      processLoop (setRunType positions i j (getP positions (i - 1)).cursor_type) j
    else
      processLoop positions j
  else positions
termination_by positions.size - i
decreasing_by
  · have hj := le_findRunEnd positions (getP positions i).cursor_type (i + 1)
    rw [setRunType_size]
    omega
  · have hj := le_findRunEnd positions (getP positions i).cursor_type (i + 1)
    omega

/-- `process_cursor_changes` (lib.rs:1000-1023).  The loop bound
`i < positions.len() - 1` is `usize` arithmetic: on the empty vector
`len() - 1` underflows — debug builds panic on the subtraction; release
builds wrap to `2 ^ 64 - 1` and `&positions[0]` then panics out of bounds —
modelled as `none`.  For a non-empty vector the wrapped bound equals the
`Nat` bound `size - 1` and every index access of the scan is in bounds. -/
def process_cursor_changes (positions : Array MousePosition) :
    Option (Array MousePosition) :=
  if positions.size = 0 then none
  else some (processLoop positions 0)

/-! ## `stop_recording` (lib.rs:1027-1150) -/

/-- Environment a `stop_recording` call runs against: lock health of the two
`std` mutexes, the artifact file's size at the final existence check
(lib.rs:1104-1115, `none` = metadata error), and the port
`start_video_server` came back with (`none` = server error). -/
structure StopEnv where
  portsLockOk : Bool
  positionsLockOk : Bool
  artifactSize : Option Nat
  serverPort : Option Nat
deriving Repr, DecidableEq

/-- `stop_recording` (lib.rs:1027-1150): result is the final global state and
the command's return value; `none` models a panic (only reachable through
`process_cursor_changes` on an empty drained buffer).  The wait loop
(lib.rs:1052-1101) only sleeps and logs, so it leaves no trace in the state. -/
def stop_recording (st : GlobalState) (env : StopEnv) :
    Option (GlobalState × Except String (String × Array MousePosition)) :=
  if st.recording = false then
    -- lib.rs:1030-1034: clean up stale resources, then error out
    some (cleanup_resources st env.portsLockOk env.positionsLockOk,
      .error "Not recording")
  else
    let st1 := { st with shouldStop := true }                    -- lib.rs:1037
    match st1.videoPath with
    | none =>
      some (cleanup_resources st1 env.portsLockOk env.positionsLockOk,
        .error "No video path available")
    | some _path =>
      let fileOk := match env.artifactSize with
        | some n => decide (n > 0)
        | none => false
      if fileOk = false then
        -- lib.rs:1117-1121
        some (cleanup_resources st1 env.portsLockOk env.positionsLockOk,
          .error "No usable video file was created. The recording may have failed.")
      else
        let st2 := { st1 with shouldListenClicks := false,
                              isMouseClicked := false }          -- lib.rs:1124-1125
        match env.serverPort with
        | some port =>
          if env.positionsLockOk then
            -- lib.rs:1133-1136: drain wholesale, then post-process
            let drained := st2.mousePositions.toArray
            let st3 := { st2 with mousePositions := [] }
            match process_cursor_changes drained with
            | none => none
            | some processed =>
              some (st3, .ok ("http://localhost:" ++ toString port, processed))
          else
            some (st2, .ok ("http://localhost:" ++ toString port, #[]))
        | none =>
          some (cleanup_resources st2 env.portsLockOk env.positionsLockOk,
            .error "Failed to start video server")

/-! ## Basic lemmas -/

theorem getP_def (ps : Array MousePosition) (k : Nat) :
    getP ps k = if h : k < ps.size then ps[k] else default := by
  unfold getP
  split
  · next h => rw [getElem?_pos ps k h]; rfl
  · next h => rw [getElem?_neg ps k h]; rfl

theorem getP_setRunType (cur : Array MousePosition) (i j k : Nat) (t : String) :
    getP (setRunType cur i j t) k =
      if i ≤ k ∧ k < j ∧ k < cur.size then
        { getP cur k with cursor_type := t }
      else getP cur k := by
  unfold setRunType getP
  rw [Array.getElem?_ofFn]
  by_cases hk : k < cur.size
  · rw [dif_pos hk]
    by_cases hij : i ≤ k ∧ k < j
    · simp [hij.1, hij.2, hk]
    · have h3 : ¬ (i ≤ k ∧ k < j ∧ k < cur.size) := fun h => hij ⟨h.1, h.2.1⟩
      simp only [Option.getD_some, if_neg h3]
      split
      · next hcond => exact absurd ⟨hcond.1, hcond.2⟩ hij
      · rfl
  · rw [dif_neg hk, if_neg (fun h => hk h.2.2), getElem?_neg cur k hk]

theorem findRunEnd_le_size (positions : Array MousePosition) (t : String)
    (j : Nat) (hj : j ≤ positions.size) :
    findRunEnd positions t j ≤ positions.size := by
  unfold findRunEnd
  split
  · next h =>
    split
    · exact findRunEnd_le_size positions t (j + 1) h
    · exact hj
  · exact hj
termination_by positions.size - j

theorem findRunEnd_run (positions : Array MousePosition) (t : String) (j : Nat) :
    ∀ k, j ≤ k → k < findRunEnd positions t j →
      (getP positions k).cursor_type = t := by
  unfold findRunEnd
  split
  · next h =>
    split
    · next heq =>
      intro k hk1 hk2
      rcases Nat.eq_or_lt_of_le hk1 with rfl | hlt
      · exact heq
      · exact findRunEnd_run positions t (j + 1) k hlt hk2
    · intro k hk1 hk2
      omega
  · intro k hk1 hk2
    omega
termination_by positions.size - j

theorem findRunEnd_stop (positions : Array MousePosition) (t : String) (j : Nat) :
    findRunEnd positions t j < positions.size →
    (getP positions (findRunEnd positions t j)).cursor_type ≠ t := by
  unfold findRunEnd
  split
  · next h =>
    split
    · exact findRunEnd_stop positions t (j + 1)
    · next hne =>
      intro _
      exact hne
  · next h =>
    intro hlt
    omega
termination_by positions.size - j

/-! ## Run structure of a sample sequence -/

/-- `[a, b)` is a maximal contiguous run of equal `cursor_type` in `ps`. -/
def IsRun (ps : Array MousePosition) (a b : Nat) : Prop :=
  a < b ∧ b ≤ ps.size ∧
  (∀ k, a ≤ k → k < b → (getP ps k).cursor_type = (getP ps a).cursor_type) ∧
  (0 < a → (getP ps (a - 1)).cursor_type ≠ (getP ps a).cursor_type) ∧
  (b < ps.size → (getP ps b).cursor_type ≠ (getP ps a).cursor_type)

/-- Timestamp span of the run `[a, b)` in milliseconds, exactly as the scan
computes it (lib.rs:1013). -/
def runSpanMs (ps : Array MousePosition) (a b : Nat) : ℚ :=
  ((getP ps (b - 1)).timestamp - (getP ps a).timestamp) * 1000

/-- The debounce condition for the run `[a, b)` of the drained sequence: the
run is short (lib.rs:1013-1014), is not the first run (`i > 0`), and is
reached by the scan at all (the loop bound stops at `size - 1`, so a run
starting at the last index is never examined). -/
def Debounced (ps : Array MousePosition) (a b : Nat) : Prop :=
  0 < a ∧ a < ps.size - 1 ∧ runSpanMs ps a b < 100

/-- Two right-maximal extents of the run beginning at `a` coincide. -/
theorem run_end_unique (ps : Array MousePosition) (a b c : Nat)
    (hb : IsRun ps a b) (hc1 : a < c) (hc2 : c ≤ ps.size)
    (hc3 : ∀ k, a ≤ k → k < c →
      (getP ps k).cursor_type = (getP ps a).cursor_type)
    (hc4 : c < ps.size →
      (getP ps c).cursor_type ≠ (getP ps a).cursor_type) :
    b = c := by
  obtain ⟨h1, h2, h3, _h4, h5⟩ := hb
  by_contra hne
  rcases Nat.lt_or_ge b c with hlt | hge
  · exact (h5 (lt_of_lt_of_le hlt hc2)) (hc3 b (le_of_lt h1) hlt)
  · have hlt : c < b := lt_of_le_of_ne hge (Ne.symm hne)
    exact (hc4 (lt_of_lt_of_le hlt h2)) (h3 c (le_of_lt hc1) hlt)

/-- Equality of every field except `cursor_type`: the debounce pass never
touches position, timestamp or click data. -/
def SameData (p q : MousePosition) : Prop :=
  p.x = q.x ∧ p.y = q.y ∧ p.timestamp = q.timestamp ∧ p.isClicked = q.isClicked

theorem SameData_refl (p : MousePosition) : SameData p p :=
  ⟨rfl, rfl, rfl, rfl⟩

theorem processLoop_eq (cur : Array MousePosition) (i : Nat) :
    processLoop cur i =
      if i < cur.size - 1 then
        (if ((getP cur (findRunEnd cur (getP cur i).cursor_type (i + 1) - 1)).timestamp
              - (getP cur i).timestamp) * 1000 < 100 ∧ 0 < i then
          processLoop
            (setRunType cur i (findRunEnd cur (getP cur i).cursor_type (i + 1))
              (getP cur (i - 1)).cursor_type)
            (findRunEnd cur (getP cur i).cursor_type (i + 1))
        else
          processLoop cur (findRunEnd cur (getP cur i).cursor_type (i + 1)))
      else cur := by
  rw [processLoop]
  simp only [dite_eq_ite]

/-- Main loop invariant: running the scan from position `i` of an array `cur`
that agrees with the original drained sequence `ps` from `i` on (and whose
non-cursor data agrees everywhere) reclassifies exactly the debounced runs at
or after `i` and freezes everything before `i`. -/
theorem processLoop_spec (ps : Array MousePosition) :
    ∀ (n : Nat) (cur : Array MousePosition) (i : Nat),
      ps.size - i ≤ n →
      cur.size = ps.size →
      (∀ k, i ≤ k → getP cur k = getP ps k) →
      (∀ k, SameData (getP cur k) (getP ps k)) →
      (0 < i → i < ps.size →
        (getP ps (i - 1)).cursor_type ≠ (getP ps i).cursor_type) →
      (processLoop cur i).size = ps.size ∧
      (∀ k, k < i → getP (processLoop cur i) k = getP cur k) ∧
      (∀ k, SameData (getP (processLoop cur i) k) (getP ps k)) ∧
      (∀ a b, i ≤ a → IsRun ps a b →
        (Debounced ps a b →
          ∀ k, a ≤ k → k < b →
            (getP (processLoop cur i) k).cursor_type =
              (getP (processLoop cur i) (a - 1)).cursor_type) ∧
        (¬ Debounced ps a b →
          ∀ k, a ≤ k → k < b →
            (getP (processLoop cur i) k).cursor_type =
              (getP ps k).cursor_type)) := by
  intro n
  induction n with
  | zero =>
    intro cur i hn hsz hagree hsame _hbound
    have hstop : ¬ i < cur.size - 1 := by omega
    rw [processLoop_eq, if_neg hstop]
    refine ⟨hsz, fun k _ => rfl, hsame, ?_⟩
    intro a b _ha hR
    exfalso
    have h1 := hR.1
    have h2 := hR.2.1
    omega
  | succ n ih =>
    intro cur i hn hsz hagree hsame hbound
    by_cases hloop : i < cur.size - 1
    case neg =>
      rw [processLoop_eq, if_neg hloop]
      refine ⟨hsz, fun k _ => rfl, hsame, ?_⟩
      intro a b ha hR
      have hab := hR.1
      have hbsz := hR.2.1
      constructor
      · intro hdeb
        exfalso
        have h3 := hdeb.2.1
        omega
      · intro _ k hk1 hk2
        exact congrArg MousePosition.cursor_type (hagree k (by omega))
    case pos =>
      have hisz : i < ps.size := by omega
      have hi1 : i + 1 ≤ cur.size := by omega
      obtain ⟨j, hj⟩ : ∃ j, j = findRunEnd cur (getP cur i).cursor_type (i + 1) :=
        ⟨_, rfl⟩
      have hj1 : i + 1 ≤ j := by
        rw [hj]; exact le_findRunEnd _ _ _
      have hj2 : j ≤ cur.size := by
        rw [hj]; exact findRunEnd_le_size _ _ _ hi1
      have hjps : j ≤ ps.size := by omega
      have hcuri : getP cur i = getP ps i := hagree i (le_refl i)
      have hfr : ∀ k, i + 1 ≤ k → k < j →
          (getP cur k).cursor_type = (getP cur i).cursor_type := by
        intro k h1 h2
        rw [hj] at h2
        exact findRunEnd_run _ _ _ k h1 h2
      have hfs : j < cur.size →
          (getP cur j).cursor_type ≠ (getP cur i).cursor_type := by
        intro h
        rw [hj] at h ⊢
        exact findRunEnd_stop _ _ _ h
      -- the scan's run `[i, j)` is a maximal run of the original sequence
      have hrunall : ∀ k, i ≤ k → k < j →
          (getP ps k).cursor_type = (getP ps i).cursor_type := by
        intro k hk1 hk2
        rcases Nat.eq_or_lt_of_le hk1 with heq | hlt
        · rw [← heq]
        · have h := hfr k hlt hk2
          rw [hagree k (by omega), hcuri] at h
          exact h
      have hrstop : j < ps.size →
          (getP ps j).cursor_type ≠ (getP ps i).cursor_type := by
        intro hjlt hc
        have h := hfs (by omega)
        rw [hagree j (by omega)] at h
        exact h (by rw [hc, hcuri])
      have hRun : IsRun ps i j :=
        ⟨by omega, hjps, hrunall, fun hi0 => hbound hi0 hisz, hrstop⟩
      have hdurEq : ((getP cur (j - 1)).timestamp - (getP cur i).timestamp) * 1000
          = runSpanMs ps i j := by
        unfold runSpanMs
        rw [hagree (j - 1) (by omega), hagree i (le_refl i)]
      -- any other run at or after `i` starts at or after `j`
      have hlater : ∀ a b, i ≤ a → a ≠ i → IsRun ps a b → j ≤ a := by
        intro a b ha hne hR
        by_contra hja
        push_neg at hja
        have ha0 : 0 < a := by omega
        have h1 := hR.2.2.2.1 ha0
        have h2 := hrunall (a - 1) (by omega) (by omega)
        have h3 := hrunall a (by omega) (by omega)
        rw [h2, h3] at h1
        exact h1 rfl
      have hbound' : 0 < j → j < ps.size →
          (getP ps (j - 1)).cursor_type ≠ (getP ps j).cursor_type := by
        intro _ hjlt hc
        refine hrstop hjlt ?_
        rw [← hc]
        exact hrunall (j - 1) (by omega) (by omega)
      by_cases hcond :
          ((getP cur (j - 1)).timestamp - (getP cur i).timestamp) * 1000 < 100 ∧ 0 < i
      case pos =>
        obtain ⟨hcondDur, hi0⟩ := hcond
        have hstep : processLoop cur i =
            processLoop (setRunType cur i j (getP cur (i - 1)).cursor_type) j := by
          conv_lhs => rw [processLoop_eq]
          rw [if_pos hloop, ← hj, if_pos ⟨hcondDur, hi0⟩]
        have hsz' : (setRunType cur i j (getP cur (i - 1)).cursor_type).size
            = ps.size := by
          rw [setRunType_size]; exact hsz
        have hagree' : ∀ k, j ≤ k →
            getP (setRunType cur i j (getP cur (i - 1)).cursor_type) k
              = getP ps k := by
          intro k hk
          rw [getP_setRunType, if_neg (by omega)]
          exact hagree k (by omega)
        have hsame' : ∀ k,
            SameData (getP (setRunType cur i j (getP cur (i - 1)).cursor_type) k)
              (getP ps k) := by
          intro k
          rw [getP_setRunType]
          split
          · exact hsame k
          · exact hsame k
        obtain ⟨C1, C2, C3, C4⟩ :=
          ih (setRunType cur i j (getP cur (i - 1)).cursor_type) j (by omega)
            hsz' hagree' hsame' hbound'
        rw [hstep]
        refine ⟨C1, ?_, C3, ?_⟩
        · intro k hk
          rw [C2 k (by omega), getP_setRunType, if_neg (by omega)]
        · intro a b ha hR
          rcases Nat.eq_or_lt_of_le ha with heq | hlt
          · subst heq
            have hbj : b = j :=
              run_end_unique ps i b j hR (by omega) hjps hrunall hrstop
            rw [hbj]
            have hdeb : Debounced ps i j :=
              ⟨hi0, by omega, by rw [← hdurEq]; exact hcondDur⟩
            constructor
            · intro _ k hk1 hk2
              rw [C2 k (by omega), C2 (i - 1) (by omega),
                getP_setRunType cur i j k ((getP cur (i - 1)).cursor_type),
                getP_setRunType cur i j (i - 1) ((getP cur (i - 1)).cursor_type),
                if_pos ⟨hk1, hk2, by omega⟩, if_neg (by omega)]
            · intro hnd
              exact absurd hdeb hnd
          · exact C4 a b (hlater a b (by omega) (by omega) hR) hR
      case neg =>
        have hstep : processLoop cur i = processLoop cur j := by
          conv_lhs => rw [processLoop_eq]
          rw [if_pos hloop, ← hj, if_neg hcond]
        have hagree' : ∀ k, j ≤ k → getP cur k = getP ps k := fun k hk =>
          hagree k (by omega)
        obtain ⟨C1, C2, C3, C4⟩ := ih cur j (by omega) hsz hagree' hsame hbound'
        rw [hstep]
        refine ⟨C1, ?_, C3, ?_⟩
        · intro k hk
          exact C2 k (by omega)
        · intro a b ha hR
          rcases Nat.eq_or_lt_of_le ha with heq | hlt
          · subst heq
            have hbj : b = j :=
              run_end_unique ps i b j hR (by omega) hjps hrunall hrstop
            rw [hbj]
            have hnd : ¬ Debounced ps i j := by
              intro hdeb
              exact hcond ⟨by rw [hdurEq]; exact hdeb.2.2, hdeb.1⟩
            constructor
            · intro hdeb
              exact absurd hdeb hnd
            · intro _ k hk1 hk2
              rw [C2 k (by omega)]
              exact congrArg MousePosition.cursor_type (hagree k (by omega))
          · exact C4 a b (hlater a b (by omega) (by omega) hR) hR

/-! ## Claim theorems -/

/-- C2 (amended): for every non-empty drained sample sequence the debounce
pass completes and reclassifies exactly the maximal runs that are short
(span under 100 ms), not the very first run, and not a run beginning at the
final sample (the scan bound `len - 1` never examines that one), giving them
the post-pass shape of the sample just before the run; all other runs keep
their original shapes, and no x, y, timestamp or click data changes. -/
theorem process_cursor_changes_spec (ps : Array MousePosition)
    (hne : ps.size ≠ 0) :
    ∃ out, process_cursor_changes ps = some out ∧
      out.size = ps.size ∧
      (∀ k, SameData (getP out k) (getP ps k)) ∧
      (∀ a b, IsRun ps a b →
        (Debounced ps a b →
          ∀ k, a ≤ k → k < b →
            (getP out k).cursor_type = (getP out (a - 1)).cursor_type) ∧
        (¬ Debounced ps a b →
          ∀ k, a ≤ k → k < b →
            (getP out k).cursor_type = (getP ps k).cursor_type)) := by
  refine ⟨processLoop ps 0, ?_, ?_⟩
  · unfold process_cursor_changes
    rw [if_neg hne]
  obtain ⟨C1, _C2, C3, C4⟩ := processLoop_spec ps ps.size ps 0 (by omega) rfl
    (fun _ _ => rfl) (fun _ => SameData_refl _)
    (fun h => absurd h (lt_irrefl 0))
  exact ⟨C1, C3, fun a b hR => C4 a b (Nat.zero_le a) hR⟩

/-- The spec's concrete debounce scenario: two samples of shape `A` at 0 s
and 0.04 s, two of shape `B` at 0.05 s and 0.12 s (a 70 ms run, not the
first), and two of shape `A` at 0.13 s and 0.4 s. -/
def debounceExample : Array MousePosition :=
  #[⟨0, 0, 0, false, "A"⟩, ⟨1, 1, 1/25, false, "A"⟩,
    ⟨2, 2, 1/20, false, "B"⟩, ⟨3, 3, 3/25, false, "B"⟩,
    ⟨4, 4, 13/100, false, "A"⟩, ⟨5, 5, 2/5, false, "A"⟩]

/-- Two samples whose second (and last) entry opens a fresh 0 ms run: shape
`A` at 0 s, shape `B` at 0.3 s. -/
def lastRunExample : Array MousePosition :=
  #[⟨0, 0, 0, false, "A"⟩, ⟨0, 0, 3/10, false, "B"⟩]

/-- C2 witness: on the spec's scenario the `B` run `[2, 4)` is debounced to
the preceding shape and every other run keeps its shape, so every one of the
six output samples carries shape `A` — one continuous `A` run from 0 to
0.4 s. -/
theorem process_cursor_changes_spec_witness :
    process_cursor_changes debounceExample
      = some (processLoop debounceExample 0) ∧
    (getP (processLoop debounceExample 0) 0).cursor_type = "A" ∧
    (getP (processLoop debounceExample 0) 1).cursor_type = "A" ∧
    (getP (processLoop debounceExample 0) 2).cursor_type = "A" ∧
    (getP (processLoop debounceExample 0) 3).cursor_type = "A" ∧
    (getP (processLoop debounceExample 0) 4).cursor_type = "A" ∧
    (getP (processLoop debounceExample 0) 5).cursor_type = "A" := by
  obtain ⟨out, h1, _h2, _h3, h4⟩ :=
    process_cursor_changes_spec debounceExample (by decide)
  have hout : out = processLoop debounceExample 0 := by
    rw [process_cursor_changes, if_neg (by decide)] at h1
    exact (Option.some.inj h1).symm
  subst hout
  have hrun1 : IsRun debounceExample 0 2 := by
    refine ⟨by omega, by decide, ?_, by omega, by decide⟩
    intro k h1 h2
    interval_cases k <;> decide
  have hrun2 : IsRun debounceExample 2 4 := by
    refine ⟨by omega, by decide, ?_, by decide, by decide⟩
    intro k h1 h2
    interval_cases k <;> decide
  have hrun3 : IsRun debounceExample 4 6 := by
    refine ⟨by omega, by decide, ?_, by decide, ?_⟩
    · intro k h1 h2
      interval_cases k <;> decide
    · intro h
      exact absurd h (by decide)
  have hd1 : ¬ Debounced debounceExample 0 2 := by
    intro h
    exact absurd h.1 (by omega)
  have hd2 : Debounced debounceExample 2 4 :=
    ⟨by omega, by decide, (by norm_num : ((3 : ℚ)/25 - 1/20) * 1000 < 100)⟩
  have hd3 : ¬ Debounced debounceExample 4 6 := by
    intro h
    have h3 := h.2.2
    have h4 : ¬ ((2 : ℚ)/5 - 13/100) * 1000 < 100 := by norm_num
    exact h4 h3
  have e0 : (getP (processLoop debounceExample 0) 0).cursor_type = "A" :=
    (h4 0 2 hrun1).2 hd1 0 (by omega) (by omega)
  have e1 : (getP (processLoop debounceExample 0) 1).cursor_type = "A" :=
    (h4 0 2 hrun1).2 hd1 1 (by omega) (by omega)
  have e2 : (getP (processLoop debounceExample 0) 2).cursor_type = "A" := by
    rw [(h4 2 4 hrun2).1 hd2 2 (by omega) (by omega)]
    exact e1
  have e3 : (getP (processLoop debounceExample 0) 3).cursor_type = "A" := by
    rw [(h4 2 4 hrun2).1 hd2 3 (by omega) (by omega)]
    exact e1
  have e4 : (getP (processLoop debounceExample 0) 4).cursor_type = "A" :=
    (h4 4 6 hrun3).2 hd3 4 (by omega) (by omega)
  have e5 : (getP (processLoop debounceExample 0) 5).cursor_type = "A" :=
    (h4 4 6 hrun3).2 hd3 5 (by omega) (by omega)
  exact ⟨h1, e0, e1, e2, e3, e4, e5⟩

/-- C2 counterexample: the claim as stated demands that *every* non-first run
under 100 ms be reclassified to the shape of the immediately preceding run,
but a run consisting solely of the final sample is never examined by the scan
(its bound is `len - 1`): on `lastRunExample` the `B` run `[1, 2)` spans 0 ms
and is not the first run, yet the pass leaves it as `B` instead of turning it
into the preceding `A`. -/
theorem process_cursor_changes_last_run_counterexample :
    IsRun lastRunExample 1 2 ∧
    runSpanMs lastRunExample 1 2 < 100 ∧
    (0 : Nat) < 1 ∧
    process_cursor_changes lastRunExample
      = some (processLoop lastRunExample 0) ∧
    (getP (processLoop lastRunExample 0) 1).cursor_type = "B" ∧
    (getP (processLoop lastRunExample 0) 0).cursor_type = "A" ∧
    ("B" : String) ≠ "A" := by
  have hrun1 : IsRun lastRunExample 0 1 := by
    refine ⟨by omega, by decide, ?_, by omega, by decide⟩
    intro k h1 h2
    interval_cases k
    decide
  have hrun2 : IsRun lastRunExample 1 2 := by
    refine ⟨by omega, by decide, ?_, by decide, ?_⟩
    · intro k h1 h2
      interval_cases k
      decide
    · intro h
      exact absurd h (by decide)
  have hd1 : ¬ Debounced lastRunExample 0 1 := by
    intro h
    exact absurd h.1 (by omega)
  have hd2 : ¬ Debounced lastRunExample 1 2 := by
    intro h
    have h2 := h.2.1
    rw [show lastRunExample.size = 2 from rfl] at h2
    omega
  obtain ⟨C1, _C2, _C3, C4⟩ := processLoop_spec lastRunExample 2
    lastRunExample 0
    (le_of_eq (congrArg (fun n => n - 0)
      (rfl : lastRunExample.size = 2))) rfl
    (fun _ _ => rfl) (fun _ => SameData_refl _) (fun h => absurd h (lt_irrefl 0))
  refine ⟨hrun2, (by norm_num : ((3 : ℚ)/10 - 3/10) * 1000 < 100), by omega,
    by rw [process_cursor_changes, if_neg (by decide)], ?_, ?_, by decide⟩
  · rw [(C4 1 2 (by omega) hrun2).2 hd2 1 (by omega) (by omega)]
    decide
  · rw [(C4 0 1 (by omega) hrun1).2 hd1 0 (by omega) (by omega)]
    decide


/-- C9: the claim asserts the debounce pass cannot panic, in particular on the
empty drained sequence; but there `positions.len() - 1` underflows and the
pass panics (modelled `none`), and `stop_recording` reaches that call with an
empty buffer when a session recorded no samples. -/
theorem process_cursor_changes_empty_panics :
    process_cursor_changes #[] = none ∧
    stop_recording
        { recording := true, videoPath := some "v.mp4", shouldStop := false,
          isMouseClicked := false, shouldListenClicks := true,
          encodingFinished := true, encoderActive := false, videoMmap := none,
          serverPorts := [], mousePositions := [], clickLogged := false,
          artifactFile := some [1] }
        { portsLockOk := true, positionsLockOk := true,
          artifactSize := some 5, serverPort := some 8000 } = none := by
  constructor
  · rfl
  · rfl

/-- C5: frame-forwarding failures are fatal while the post-increment frame
count is under 100 and are swallowed (capture continues) from then on. -/
theorem on_frame_arrived_send_policy (n : Nat) (e : String) :
    (n + 1 < 100 → on_frame_arrived_send true n (.err e) = .error e) ∧
    (100 ≤ n + 1 → on_frame_arrived_send true n (.err e) = .ok ()) := by
  refine ⟨fun h => ?_, fun h => ?_⟩
  · simp [on_frame_arrived_send, h]
  · simp only [on_frame_arrived_send]
    rw [if_neg (Nat.not_lt.mpr h)]
    rfl

/-- C5 witness: an error at frame 6 aborts; an error at frame 151 is
swallowed. -/
theorem on_frame_arrived_send_policy_witness :
    on_frame_arrived_send true 5 (.err "encode failure") = .error "encode failure" ∧
    on_frame_arrived_send true 150 (.err "encode failure") = .ok () :=
  ⟨(on_frame_arrived_send_policy 5 "encode failure").1 (by omega),
   (on_frame_arrived_send_policy 150 "encode failure").2 (by omega)⟩

/-- C6: the supervising wait uses the 5 s deadline exactly when the
pre-finalization artifact size exceeds 1 MB and the 10 s deadline otherwise,
and on every outcome — success, finalization error, or deadline expiry — it
sets `encoding_finished` and neither cancels nor joins the worker thread. -/
theorem supervise_finalization_spec (preSize : Nat) (outcome : FinalizeOutcome)
    (st : FinalizerState) :
    (supervise_finalization preSize outcome st).1
      = (if preSize > 1024 * 1024 then 5 else 10) ∧
    (supervise_finalization preSize outcome st).2.encodingFinished = true ∧
    (supervise_finalization preSize outcome st).2.workerCancelled
      = st.workerCancelled ∧
    (supervise_finalization preSize outcome st).2.workerJoined
      = st.workerJoined := by
  cases outcome <;>
    simp [supervise_finalization, finalize_deadline_secs]

/-- C8: the Reclaimer is idempotent, total, lock-failure-tolerant, clears
every session-scoped resource it owns, and never touches the artifact path or
the artifact file on disk. -/
theorem cleanup_resources_spec (st : GlobalState) (p q : Bool) :
    cleanup_resources (cleanup_resources st p q) p q = cleanup_resources st p q ∧
    (cleanup_resources st p q).shouldStop = false ∧
    (cleanup_resources st p q).encoderActive = false ∧
    (cleanup_resources st p q).videoMmap = none ∧
    (cleanup_resources st p q).recording = false ∧
    (cleanup_resources st p q).shouldListenClicks = false ∧
    (p = true → (cleanup_resources st p q).serverPorts = []) ∧
    (q = true → (cleanup_resources st p q).mousePositions = []) ∧
    (cleanup_resources st p q).videoPath = st.videoPath ∧
    (cleanup_resources st p q).artifactFile = st.artifactFile := by
  cases p <;> cases q <;> simp [cleanup_resources]

/-- C8 witness: on a fully busy state with healthy locks the Reclaimer clears
the ports and the sample buffer and a second run changes nothing. -/
theorem cleanup_resources_spec_witness :
    (cleanup_resources
        { recording := true, videoPath := some "v.mp4", shouldStop := true,
          isMouseClicked := true, shouldListenClicks := true,
          encodingFinished := false, encoderActive := true,
          videoMmap := some [1, 2, 3], serverPorts := [8000],
          mousePositions := [⟨5, 6, 0, true, "default"⟩], clickLogged := true,
          artifactFile := some [9, 9] } true true).serverPorts = [] ∧
    (cleanup_resources
        { recording := true, videoPath := some "v.mp4", shouldStop := true,
          isMouseClicked := true, shouldListenClicks := true,
          encodingFinished := false, encoderActive := true,
          videoMmap := some [1, 2, 3], serverPorts := [8000],
          mousePositions := [⟨5, 6, 0, true, "default"⟩], clickLogged := true,
          artifactFile := some [9, 9] } true true).mousePositions = [] ∧
    cleanup_resources
        (cleanup_resources
          { recording := true, videoPath := some "v.mp4", shouldStop := true,
            isMouseClicked := true, shouldListenClicks := true,
            encodingFinished := false, encoderActive := true,
            videoMmap := some [1, 2, 3], serverPorts := [8000],
            mousePositions := [⟨5, 6, 0, true, "default"⟩], clickLogged := true,
            artifactFile := some [9, 9] } true true) true true
      = cleanup_resources
          { recording := true, videoPath := some "v.mp4", shouldStop := true,
            isMouseClicked := true, shouldListenClicks := true,
            encodingFinished := false, encoderActive := true,
            videoMmap := some [1, 2, 3], serverPorts := [8000],
            mousePositions := [⟨5, 6, 0, true, "default"⟩], clickLogged := true,
            artifactFile := some [9, 9] } true true := by
  obtain ⟨h1, _, _, _, _, _, h7, h8, _, _⟩ := cleanup_resources_spec
    { recording := true, videoPath := some "v.mp4", shouldStop := true,
      isMouseClicked := true, shouldListenClicks := true,
      encodingFinished := false, encoderActive := true,
      videoMmap := some [1, 2, 3], serverPorts := [8000],
      mousePositions := [⟨5, 6, 0, true, "default"⟩], clickLogged := true,
      artifactFile := some [9, 9] } true true
  exact ⟨h7 rfl, h8 rfl, h1⟩

/-- C7: `stop_recording` while not recording still runs the Reclaimer and
then returns the `Not recording` error, leaving the session idle. -/
theorem stop_recording_not_recording (st : GlobalState) (env : StopEnv)
    (hrec : st.recording = false) (hp : env.portsLockOk = true)
    (hq : env.positionsLockOk = true) :
    stop_recording st env
      = some (cleanup_resources st true true, .error "Not recording") ∧
    (cleanup_resources st true true).recording = false ∧
    (cleanup_resources st true true).shouldStop = false ∧
    (cleanup_resources st true true).encoderActive = false ∧
    (cleanup_resources st true true).videoMmap = none ∧
    (cleanup_resources st true true).serverPorts = [] ∧
    (cleanup_resources st true true).mousePositions = [] := by
  refine ⟨?_, by simp [cleanup_resources], by simp [cleanup_resources],
    by simp [cleanup_resources], by simp [cleanup_resources],
    by simp [cleanup_resources], by simp [cleanup_resources]⟩
  simp only [stop_recording, hrec, hp, hq, if_pos]

/-- C7 witness: a stale busy-looking but non-recording state is reset and the
call errors out. -/
theorem stop_recording_not_recording_witness :
    stop_recording
        { recording := false, videoPath := some "old.mp4", shouldStop := true,
          isMouseClicked := true, shouldListenClicks := true,
          encodingFinished := false, encoderActive := true,
          videoMmap := some [4, 4], serverPorts := [8003],
          mousePositions := [⟨0, 0, 0, false, "text"⟩], clickLogged := false,
          artifactFile := some [1] }
        { portsLockOk := true, positionsLockOk := true, artifactSize := some 2,
          serverPort := some 8000 }
      = some (cleanup_resources
          { recording := false, videoPath := some "old.mp4", shouldStop := true,
            isMouseClicked := true, shouldListenClicks := true,
            encodingFinished := false, encoderActive := true,
            videoMmap := some [4, 4], serverPorts := [8003],
            mousePositions := [⟨0, 0, 0, false, "text"⟩], clickLogged := false,
            artifactFile := some [1] } true true, .error "Not recording") :=
  (stop_recording_not_recording _ _ rfl rfl rfl).1

theorem take_min_length (l : List Nat) (n : Nat) :
    l.take (min n l.length) = l.take n := by
  rcases Nat.le_total n l.length with h | h
  · rw [Nat.min_eq_left h]
  · rw [Nat.min_eq_right h, List.take_length,
      List.take_of_length_le h]

/-- C4 (amended): over a fixed artifact, chunk retrieval is pure (hence
idempotent) and, for every index whose byte offset does not overflow `usize`,
total: an in-range index returns the window
`index * CHUNK_SIZE .. + CHUNK_SIZE` clamped at end of file, and an
out-of-range index returns the out-of-bounds error.  (An index whose offset
reaches `2 ^ 64` wraps in a release build — see the counterexample.) -/
theorem get_video_chunk_spec (m : List Nat) (i : Nat)
    (hno : i * CHUNK_SIZE < USIZE_MOD) :
    (i * CHUNK_SIZE < m.length →
      get_video_chunk (some m) i
        = .ok ((m.drop (i * CHUNK_SIZE)).take CHUNK_SIZE)) ∧
    (m.length ≤ i * CHUNK_SIZE →
      get_video_chunk (some m) i = .error "Chunk index out of bounds") ∧
    get_video_chunk (some m) i = get_video_chunk (some m) i := by
  have hmod : i * CHUNK_SIZE % USIZE_MOD = i * CHUNK_SIZE :=
    Nat.mod_eq_of_lt hno
  refine ⟨fun h => ?_, fun h => ?_, rfl⟩
  · simp only [get_video_chunk, hmod]
    rw [if_neg (by omega)]
    have hmin : min (i * CHUNK_SIZE + CHUNK_SIZE) m.length - i * CHUNK_SIZE
        = min CHUNK_SIZE (m.length - i * CHUNK_SIZE) := by omega
    rw [hmin, ← List.length_drop, take_min_length]
  · simp only [get_video_chunk, hmod]
    rw [if_pos (by omega)]

/-- C4 counterexample: "for every index `i` with `i * chunk_size ≥ file_size`
the call returns an out-of-bounds error" fails once the `usize` product
wraps: on a 1-byte artifact, index `2 ^ 44` has `i * chunk_size = 2 ^ 64 ≥ 1`
yet the wrapped offset is `0` and the call returns data (release build; a
debug build panics on the same multiplication instead of erroring). -/
theorem get_video_chunk_overflow_counterexample :
    (1 : Nat) ≤ 17592186044416 * CHUNK_SIZE ∧
    get_video_chunk (some [7]) 17592186044416 = .ok [7] := by
  constructor
  · norm_num [CHUNK_SIZE]
  · rfl

/-- C4 witness: on a 3-byte artifact, chunk 0 is the clamped first window and
chunk 1 is out of bounds. -/
theorem get_video_chunk_spec_witness :
    get_video_chunk (some [5, 6, 7]) 0
      = .ok (([5, 6, 7].drop (0 * CHUNK_SIZE)).take CHUNK_SIZE) ∧
    get_video_chunk (some [5, 6, 7]) 1
      = .error "Chunk index out of bounds" :=
  ⟨(get_video_chunk_spec [5, 6, 7] 0
      (by norm_num [CHUNK_SIZE, USIZE_MOD])).1 (by norm_num [CHUNK_SIZE]),
   (get_video_chunk_spec [5, 6, 7] 1
      (by norm_num [CHUNK_SIZE, USIZE_MOD])).2.1 (by norm_num [CHUNK_SIZE])⟩

/-! ## Range-server lemmas -/

theorem range_len_eq (s e : Nat) (hs : s ≤ e) (he : e + 1 < USIZE_MOD) :
    range_len s e = e - s + 1 := by
  have hM : USIZE_MOD = 18446744073709551616 := by norm_num [USIZE_MOD]
  unfold range_len
  rw [hM] at he ⊢
  omega

theorem range_bounds_parsed (N : Nat) (hdr ss es : List Char)
    (hpre : hdr.take 6 = "bytes=".toList)
    (hsplit : split_dash (hdr.drop 6) = [ss, es]) :
    range_bounds N (some hdr)
      = ((parse_u64 ss).getD 0, (parse_u64 es).getD (N - 1)) := by
  simp only [range_bounds, hpre, if_pos, hsplit]
  rfl

/-- Shape of every non-OPTIONS response (lib.rs:946-974), with the range
bounds and length left symbolic. -/
theorem video_server_respond_get (file : List Nat) (rh : Option (List Char)) :
    video_server_respond file "GET" rh =
      { status := if (range_bounds file.length rh).1 = 0 then 200 else 206
        body := (file.drop (range_bounds file.length rh).1).take
          (range_len (range_bounds file.length rh).1
            (range_bounds file.length rh).2)
        contentRange :=
          if (range_bounds file.length rh).1 ≠ 0 then
            some ((range_bounds file.length rh).1,
              (range_bounds file.length rh).2, file.length)
          else none
        contentType := some "video/mp4" } := by
  unfold video_server_respond
  rw [if_neg (by decide)]

/-- C10: a `bytes=s-e` Range header whose components fail to parse as `u64`
is not rejected: an unparsable start component is treated as `0`, an
unparsable end component as `file_size - 1`, the response status is always
200 or 206, and an open-ended `bytes=s-` request is served from byte `s`
through the last byte of the file. -/
theorem range_parse_fallback (file : List Nat) (hdr ss es : List Char)
    (hpre : hdr.take 6 = "bytes=".toList)
    (hsplit : split_dash (hdr.drop 6) = [ss, es]) :
    (parse_u64 ss = none → (range_bounds file.length (some hdr)).1 = 0) ∧
    (parse_u64 es = none →
      (range_bounds file.length (some hdr)).2 = file.length - 1) ∧
    ((video_server_respond file "GET" (some hdr)).status = 200 ∨
      (video_server_respond file "GET" (some hdr)).status = 206) ∧
    (∀ s, parse_u64 ss = some s → parse_u64 es = none →
      0 < s → s < file.length → file.length < USIZE_MOD →
      (video_server_respond file "GET" (some hdr)).status = 206 ∧
      (video_server_respond file "GET" (some hdr)).contentRange
        = some (s, file.length - 1, file.length) ∧
      (video_server_respond file "GET" (some hdr)).body = file.drop s) := by
  have hrb := range_bounds_parsed file.length hdr ss es hpre hsplit
  refine ⟨fun h => by rw [hrb, h]; rfl, fun h => by rw [hrb, h]; rfl, ?_, ?_⟩
  · rw [video_server_respond_get]
    by_cases h0 : (range_bounds file.length (some hdr)).1 = 0
    · left
      simp [h0]
    · right
      simp [h0]
  · intro s hs hes h0 hsN hNM
    have hbounds : range_bounds file.length (some hdr)
        = (s, file.length - 1) := by
      rw [hrb, hs, hes]
      rfl
    have hlen : range_len s (file.length - 1) = file.length - 1 - s + 1 :=
      range_len_eq s (file.length - 1) (by omega) (by omega)
    rw [video_server_respond_get, hbounds]
    refine ⟨by simp [show s ≠ 0 from by omega], by simp [show s ≠ 0 from by omega], ?_⟩
    show (file.drop s).take (range_len s (file.length - 1)) = file.drop s
    rw [hlen, show file.length - 1 - s + 1 = file.length - s from by omega,
      ← List.length_drop, List.take_length]

/-- C10 witness: `Range: bytes=100-` (end component empty, hence unparsable)
against a 1000-byte file is served with status 206 from byte 100 through
byte 999, i.e. 900 bytes. -/
theorem range_parse_fallback_witness :
    (video_server_respond (List.replicate 1000 7) "GET"
        (some "bytes=100-".toList)).status = 206 ∧
    (video_server_respond (List.replicate 1000 7) "GET"
        (some "bytes=100-".toList)).contentRange = some (100, 999, 1000) ∧
    (video_server_respond (List.replicate 1000 7) "GET"
        (some "bytes=100-".toList)).body
      = (List.replicate 1000 7).drop 100 := by
  obtain ⟨_f1, _f2, _f3, f4⟩ := range_parse_fallback (List.replicate 1000 7)
    "bytes=100-".toList "100".toList [] (by decide) (by decide)
  obtain ⟨g1, g2, g3⟩ := f4 100 (by decide) (by decide) (by omega)
    (by simp only [List.length_replicate]; norm_num)
    (by simp only [List.length_replicate]; norm_num [USIZE_MOD])
  refine ⟨g1, ?_, g3⟩
  rw [g2]
  simp only [List.length_replicate]

/-- C1 (amended): a GET with `Range: bytes=s-e` and `1 ≤ s ≤ e < N` is
answered 206 with `Content-Range: bytes s-e/N` and exactly `e - s + 1` body
bytes; a range request starting at byte 0 is answered 200 with no
Content-Range header (and `e + 1` body bytes); a GET with no Range header is
answered 200 with the full `N`-byte body. -/
theorem video_server_range_contract (file : List Nat) (hdr ss es : List Char)
    (s e : Nat)
    (hpre : hdr.take 6 = "bytes=".toList)
    (hsplit : split_dash (hdr.drop 6) = [ss, es])
    (hss : parse_u64 ss = some s) (hes : parse_u64 es = some e)
    (hNM : file.length < USIZE_MOD) :
    (1 ≤ s → s ≤ e → e < file.length →
      (video_server_respond file "GET" (some hdr)).status = 206 ∧
      (video_server_respond file "GET" (some hdr)).contentRange
        = some (s, e, file.length) ∧
      (video_server_respond file "GET" (some hdr)).body.length = e - s + 1) ∧
    (s = 0 → e < file.length →
      (video_server_respond file "GET" (some hdr)).status = 200 ∧
      (video_server_respond file "GET" (some hdr)).contentRange = none ∧
      (video_server_respond file "GET" (some hdr)).body.length = e + 1) ∧
    (0 < file.length →
      (video_server_respond file "GET" none).status = 200 ∧
      (video_server_respond file "GET" none).contentRange = none ∧
      (video_server_respond file "GET" none).body = file) := by
  have hrb := range_bounds_parsed file.length hdr ss es hpre hsplit
  have hbounds : range_bounds file.length (some hdr) = (s, e) := by
    rw [hrb, hss, hes]
    rfl
  refine ⟨fun h1 h2 h3 => ?_, fun h1 h2 => ?_, fun h1 => ?_⟩
  · have hlen : range_len s e = e - s + 1 :=
      range_len_eq s e h2 (by omega)
    rw [video_server_respond_get, hbounds]
    refine ⟨by simp [show s ≠ 0 from by omega],
      by simp [show s ≠ 0 from by omega], ?_⟩
    show ((file.drop s).take (range_len s e)).length = e - s + 1
    rw [hlen]
    simp only [List.length_take, List.length_drop]
    omega
  · subst h1
    have hlen : range_len 0 e = e + 1 := by
      rw [range_len_eq 0 e (Nat.zero_le e) (by omega)]
      omega
    rw [video_server_respond_get, hbounds]
    refine ⟨rfl, rfl, ?_⟩
    simp only
    rw [hlen]
    simp only [List.length_take, List.length_drop, List.drop_zero]
    omega
  · have hb : range_bounds file.length none = (0, file.length - 1) := rfl
    have hlen : range_len 0 (file.length - 1) = file.length := by
      rw [range_len_eq 0 (file.length - 1) (Nat.zero_le _) (by omega)]
      omega
    rw [video_server_respond_get, hb]
    refine ⟨rfl, rfl, ?_⟩
    simp only
    rw [hlen, List.drop_zero, List.take_length]

/-- C1 counterexample: per the claim every valid `Range: bytes=s-e` request
(`0 ≤ s ≤ e < N`) is answered 206 with a Content-Range header, but the server
keys partial-content handling on `start == 0`: `bytes=0-99` on a 1000-byte
file (s = 0, e = 99 < 1000) is answered 200 with no Content-Range header
(lib.rs:946-951, 966-974). -/
theorem video_server_zero_start_counterexample :
    (99 : Nat) < (List.replicate 1000 7).length ∧
    (video_server_respond (List.replicate 1000 7) "GET"
        (some "bytes=0-99".toList)).status = 200 ∧
    (video_server_respond (List.replicate 1000 7) "GET"
        (some "bytes=0-99".toList)).contentRange = none := by
  refine ⟨by simp only [List.length_replicate]; norm_num, by decide, by decide⟩

/-- C1 witness: `bytes=100-199` against a 1000-byte file gives 206,
`Content-Range: bytes 100-199/1000` and exactly 100 bytes; no Range header
gives 200 and the full 1000 bytes. -/
theorem video_server_range_contract_witness :
    (video_server_respond (List.replicate 1000 7) "GET"
        (some "bytes=100-199".toList)).status = 206 ∧
    (video_server_respond (List.replicate 1000 7) "GET"
        (some "bytes=100-199".toList)).contentRange = some (100, 199, 1000) ∧
    (video_server_respond (List.replicate 1000 7) "GET"
        (some "bytes=100-199".toList)).body.length = 100 ∧
    (video_server_respond (List.replicate 1000 7) "GET" none).status = 200 ∧
    (video_server_respond (List.replicate 1000 7) "GET" none).body
      = List.replicate 1000 7 := by
  obtain ⟨h1, _h2, h3⟩ := video_server_range_contract (List.replicate 1000 7)
    "bytes=100-199".toList "100".toList "199".toList 100 199
    (by decide) (by decide) (by decide) (by decide)
    (by simp only [List.length_replicate]; norm_num [USIZE_MOD])
  obtain ⟨g1, g2, g3⟩ := h1 (by omega) (by omega)
    (by simp only [List.length_replicate]; norm_num)
  obtain ⟨k1, _k2, k3⟩ := h3
    (by simp only [List.length_replicate]; norm_num)
  refine ⟨g1, ?_, ?_, k1, k3⟩
  · rw [g2]
    simp only [List.length_replicate]
  · rw [g3]

/-- C3 (amended): for a session that names a display id `i` (in range), every
stored sample's coordinates are the raw global cursor position minus the
origin of display `i` — the display the session records; for a session that
names no display, the origin subtracted is that of the *first enumerated*
display (index 0), which is the recorded (primary) display's origin only when
the primary happens to be enumerated first. -/
theorem display_relative_coordinates
    (monitors : List MonitorInfo) (id : String) (i : Nat) (m : MonitorInfo)
    (prevX prevY rawX rawY : Int) (ts : ℚ) (clicked : Bool) (ct : String)
    (hid : parse_u64 id.toList = some i) (hm : monitors[i]? = some m) :
    selected_display monitors (some id) = some m ∧
    select_monitor_origin monitors (some id) prevX prevY = (m.x, m.y) ∧
    (make_sample rawX rawY m.x m.y ts clicked ct).x = rawX - m.x ∧
    (make_sample rawX rawY m.x m.y ts clicked ct).y = rawY - m.y ∧
    (∀ m0, monitors[0]? = some m0 →
      select_monitor_origin monitors none prevX prevY = (m0.x, m0.y)) := by
  have hid2 : parse_u64 id.data = some i := hid
  refine ⟨?_, ?_, rfl, rfl, ?_⟩
  · simp [selected_display, hid2, hm]
  · simp [select_monitor_origin, hid2, hm]
  · intro m0 hm0
    simp [select_monitor_origin, hm0]

/-- C3 witness: naming display "1" on a two-display system subtracts that
display's origin from the raw cursor position. -/
theorem display_relative_coordinates_witness :
    selected_display
        [⟨"0", "Display 1", 1920, 0, 1920, 1080, false⟩,
         ⟨"1", "Display 2", 0, 200, 1920, 1080, true⟩] (some "1")
      = some ⟨"1", "Display 2", 0, 200, 1920, 1080, true⟩ ∧
    select_monitor_origin
        [⟨"0", "Display 1", 1920, 0, 1920, 1080, false⟩,
         ⟨"1", "Display 2", 0, 200, 1920, 1080, true⟩] (some "1") 0 0
      = (0, 200) ∧
    (make_sample 150 250 0 200 0 false "default").x = 150 - 0 ∧
    (make_sample 150 250 0 200 0 false "default").y = 250 - 200 := by
  obtain ⟨h1, h2, h3, h4, _h5⟩ := display_relative_coordinates
    [⟨"0", "Display 1", 1920, 0, 1920, 1080, false⟩,
     ⟨"1", "Display 2", 0, 200, 1920, 1080, true⟩] "1" 1
    ⟨"1", "Display 2", 0, 200, 1920, 1080, true⟩ 0 0 150 250 0 false "default"
    (by decide) (by decide)
  exact ⟨h1, h2, h3, h4⟩

/-- C3 counterexample: a session that names no display records the primary
(`Monitor::primary()`), but the origin subtracted is that of the display at
enumeration index 0 (lib.rs:656-671): on a system whose primary is second in
enumeration order, the stored x is `150 - 1920 = -1770`, not the
display-relative `150 - 0 = 150` the claim requires. -/
theorem display_relative_coordinates_counterexample :
    selected_display
        [⟨"0", "Display 1", 1920, 0, 1920, 1080, false⟩,
         ⟨"1", "Display 2", 0, 0, 1920, 1080, true⟩] none
      = some ⟨"1", "Display 2", 0, 0, 1920, 1080, true⟩ ∧
    select_monitor_origin
        [⟨"0", "Display 1", 1920, 0, 1920, 1080, false⟩,
         ⟨"1", "Display 2", 0, 0, 1920, 1080, true⟩] none 0 0 = (1920, 0) ∧
    (make_sample 150 50 1920 0 0 false "default").x ≠ 150 - 0 := by
  refine ⟨by decide, by decide, by decide⟩

end ScreenDemo
